import Mathlib

set_option maxRecDepth 10000

/-!
Verification of the hambot `SolarInfo` skill (src/__init__.py): XML feed
extraction, the TTL cache, and the text/HTML band-report rendering,
shallowly embedded in Lean.
-/

namespace Hambot

/-- A single quote character, used inside HTML attribute values. -/
def sq : String := "\x27"

/-- Model of an `xml.etree.ElementTree` element: tag, attribute dictionary,
optional text, and the list of child elements (document order). -/
inductive Element where
  | mk (tag : String) (attrib : List (String × String)) (text : Option String)
       (children : List Element)

def Element.tag : Element → String
  | .mk t _ _ _ => t

def Element.attrib : Element → List (String × String)
  | .mk _ a _ _ => a

def Element.text : Element → Option String
  | .mk _ _ tx _ => tx

def Element.children : Element → List Element
  | .mk _ _ _ ch => ch

/-- Model of `Element.find(tag)`: the first direct child with the given tag. -/
def Element.findTag (e : Element) (t : String) : Option Element :=
  e.children.find? (fun c => c.tag = t)

mutual
/-- Model of `Element.iter(tag)`: every element of the subtree (the element
itself included) whose tag matches, in document (preorder) order. -/
def Element.iterTag : Element → String → List Element
  | .mk t0 a tx ch, t =>
    (if t0 = t then [Element.mk t0 a tx ch] else []) ++ iterTagList ch t

def iterTagList : List Element → String → List Element
  | [], _ => []
  | c :: cs, t => c.iterTag t ++ iterTagList cs t
end

/-! Python string primitives used by the skill, modelled over `List Char`. -/

/-- One step list of Python `str.replace`: structural on a fuel argument so that
the kernel can evaluate it.  The fuel is the length of the subject string, which
is enough because every call site uses a non-empty pattern, so each recursive
step consumes at least one character. -/
def pyReplaceAux (pat rep : List Char) : Nat → List Char → List Char
  | 0, l => l
  | _ + 1, [] => []
  | fuel + 1, c :: cs =>
    if pat.isPrefixOf (c :: cs) then rep ++ pyReplaceAux pat rep fuel ((c :: cs).drop pat.length)
    else c :: pyReplaceAux pat rep fuel cs

/-- Model of Python `s.replace(pat, rep)` for a non-empty `pat`: replace all
non-overlapping occurrences, scanning left to right. -/
def pyReplace (s pat rep : String) : String :=
  String.mk (pyReplaceAux pat.data rep.data s.data.length s.data)

/-- Character step of Python `str.title` over ASCII: a letter is upper-cased
when the previous character is not a letter, lower-cased otherwise. -/
def pyTitleAux : Bool → List Char → List Char
  | _, [] => []
  | prevAlpha, c :: cs =>
    (if c.isAlpha then (if prevAlpha then c.toLower else c.toUpper) else c)
      :: pyTitleAux c.isAlpha cs

/-- Model of Python `s.title()` (ASCII subset). -/
def pyTitle (s : String) : String :=
  String.mk (pyTitleAux false s.data)

/-- Model of Python `s.startswith(pre)`. -/
def pyStartsWith (s pre : String) : Bool :=
  pre.data.isPrefixOf s.data

/-- Model of Python `s.strip()`: drop whitespace from both ends. -/
def pyStrip (s : String) : String :=
  String.mk (((s.data.dropWhile Char.isWhitespace).reverse.dropWhile Char.isWhitespace).reverse)

/-- Splitting step for Python `s.split(c)`: always returns a non-empty list of
fields separated by the character `c`. -/
def pySplitCharAux (c : Char) : List Char → List (List Char)
  | [] => [[]]
  | x :: xs =>
    match pySplitCharAux c xs with
    | [] => [[]]
    | h :: t => if x = c then [] :: h :: t else (x :: h) :: t

/-- Model of Python `s.split(c)` for a single-character separator. -/
def pySplitChar (s : String) (c : Char) : List String :=
  (pySplitCharAux c s.data).map String.mk

/-! Python ordered dictionaries as association lists: insertion keeps document
order of first appearance, and assigning to an existing key overwrites its
value in place. -/

/-- Model of Python dictionary lookup `d[k]`: the value at the first (and, for
dictionaries built by the insertion below, only) occurrence of the key. -/
def pyGet [DecidableEq α] (l : List (α × β)) (k : α) : Option β :=
  match l with
  | [] => none
  | p :: rest => if p.1 = k then some p.2 else pyGet rest k

/-- Model of Python `d[k] = v`: overwrite in place when the key is present,
append otherwise. -/
def odictInsert [DecidableEq α] (k : α) (v : β) : List (α × β) → List (α × β)
  | [] => [(k, v)]
  | p :: rest => if p.1 = k then (k, v) :: rest else p :: odictInsert k v rest

/-- Model of `defaultdict` update `d[k] = f(d[k])` with default `dflt`:
modify the value in place when the key is present, append `f dflt` otherwise. -/
def odictUpsert [DecidableEq α] (k : α) (f : β → β) (dflt : β) :
    List (α × β) → List (α × β)
  | [] => [(k, f dflt)]
  | p :: rest => if p.1 = k then (p.1, f p.2) :: rest else p :: odictUpsert k f dflt rest

/-! Data model of the extracted feed. -/

/-- A table cell: the band name, or an element text which may be absent
(Python `None`). -/
abbrev Cell := Option String

/-- Inner band dictionary: time attribute to condition text. -/
abbrev InnerD := List (String × Cell)

/-- Bands dictionary: band name to its time dictionary. -/
abbrev BandsD := List (String × InnerD)

/-- VHF dictionary: phenomenon name to location-to-status dictionary. -/
abbrev VhfD := List (String × List (String × Cell))

/-- Flat dictionary of the top-level scalar feed fields. -/
abbrev InfoD := List (String × String)

/-- Errors raised by `urlopen` or `ET.fromstring` in `get_solarxml`. -/
inductive FetchError where
  | transport (msg : String)
  | malformedXML (msg : String)
deriving Repr, DecidableEq

/-- Errors raised while extracting `band_info` from the document.
`schemaError` models the Python `AttributeError` hit when `find` returned
`None` (or an element text is `None`), which the design calls `SchemaError`;
`keyError` models a missing dictionary key or attribute; `indexError` models
indexing an element with no children. -/
inductive ExtractError where
  | schemaError (what : String)
  | keyError (key : String)
  | indexError
deriving Repr, DecidableEq

/-- Lifts an optional value into `Except`, raising `e` when it is absent. -/
def ofOpt (e : ExtractError) : Option α → Except ExtractError α
  | none => .error e
  | some a => .ok a

instance [DecidableEq ε] [DecidableEq α] : DecidableEq (Except ε α) := fun x y =>
  match x, y with
  | .error a, .error b =>
    if h : a = b then .isTrue (h ▸ rfl)
    else .isFalse (fun he => h (by injection he))
  | .ok a, .ok b =>
    if h : a = b then .isTrue (h ▸ rfl)
    else .isFalse (fun he => h (by injection he))
  | .error _, .ok _ => .isFalse (fun h => Except.noConfusion h)
  | .ok _, .error _ => .isFalse (fun h => Except.noConfusion h)

/-- Shape of `band_table` built in `band_info`. -/
structure BandTable where
  tabular_data : List (List Cell)
  headers : List String
deriving Repr, DecidableEq

/-- Shape of the `band_info` dictionary. -/
structure BandInfo where
  bands : BandTable
  vhf : VhfD
  info : InfoD
deriving Repr, DecidableEq

/-! The extractor, `SolarInfo.band_info`. -/

/-- One iteration of the band loop: `bands[band.attrib[name]][band.attrib[time]]
= band.text`, failing with a key error when an attribute is missing. -/
def bandStep (acc : BandsD) (b : Element) : Except ExtractError BandsD := do
  let n ← ofOpt (.keyError "name") (pyGet b.attrib "name")
  let t ← ofOpt (.keyError "time") (pyGet b.attrib "time")
  pure (odictUpsert n (odictInsert t b.text) [] acc)

/-- The bands dictionary accumulated over `conditions.iter("band")`. -/
def bandsDictE (conditions : Element) : Except ExtractError BandsD :=
  (conditions.iterTag "band").foldlM bandStep []

/-- Normalisation applied to a phenomenon name attribute:
`name.replace("-", " ").title().replace("Vhf", "VHF")`. -/
def normPhen (s : String) : String :=
  pyReplace (pyTitle (pyReplace s "-" " ")) "Vhf" "VHF"

/-- Normalisation applied to a location attribute:
`location.replace("_", " ").title()`. -/
def normLoc (s : String) : String :=
  pyTitle (pyReplace s "_" " ")

/-- One iteration of the VHF loop: normalise the name and location attributes
and store `vhf[name][location] = band.text`. -/
def vhfStep (acc : VhfD) (b : Element) : Except ExtractError VhfD := do
  let n ← ofOpt (.keyError "name") (pyGet b.attrib "name")
  let loc ← ofOpt (.keyError "location") (pyGet b.attrib "location")
  pure (odictUpsert (normPhen n) (odictInsert (normLoc loc) b.text) [] acc)

/-- The VHF dictionary accumulated over `vhfconditions.iter("phenomenon")`. -/
def vhfDictE (vhfconditions : Element) : Except ExtractError VhfD :=
  (vhfconditions.iterTag "phenomenon").foldlM vhfStep []

/-- One iteration of the info loop: skip tags starting with `calculated`,
otherwise store the stripped text; `tag.text.strip()` on a `None` text raises
(modelled as a schema error). -/
def infoStep (acc : InfoD) (t : Element) : Except ExtractError InfoD :=
  if pyStartsWith t.tag "calculated" then .ok acc
  else match t.text with
    | none => .error (.schemaError "text")
    | some s => .ok (odictInsert t.tag (pyStrip s) acc)

/-- The info dictionary accumulated over the children of the solar element. -/
def infoDictE (solar : Element) : Except ExtractError InfoD :=
  solar.children.foldlM infoStep []

/-- One row of `band_table`: `[band, conditions["day"], conditions["night"]]`,
failing with a key error when a time entry is missing. -/
def bandRow (p : String × InnerD) : Except ExtractError (List Cell) := do
  let day ← ofOpt (.keyError "day") (pyGet p.2 "day")
  let night ← ofOpt (.keyError "night") (pyGet p.2 "night")
  pure [some p.1, day, night]

/-- Model of the `SolarInfo.band_info` property applied to the parsed feed
root: `solar = root[0]`, then the band, VHF and info dictionaries, in source
order of the failure points. -/
def band_info (root : Element) : Except ExtractError BandInfo := do
  let solar ← ofOpt .indexError root.children.head?
  let conditions ← ofOpt (.schemaError "calculatedconditions")
    (solar.findTag "calculatedconditions")
  let bands ← bandsDictE conditions
  let tabular ← bands.mapM bandRow
  let vhfconditions ← ofOpt (.schemaError "calculatedvhfconditions")
    (solar.findTag "calculatedvhfconditions")
  let vhf ← vhfDictE vhfconditions
  let info ← infoDictE solar
  pure ⟨⟨tabular, ["Band", "Day", "Night"]⟩, vhf, info⟩

/-! Derived views of the extraction loops, used to state its dictionary
properties: the document-order entry list of each loop and the pure fold each
loop performs on it. -/

/-- The keys of an ordered dictionary, in order. -/
def odKeys (l : List (α × β)) : List α := l.map Prod.fst

/-- Nested dictionary lookup `d[n][t]`. -/
def pyGet2 [DecidableEq α] [DecidableEq γ] (d : List (α × List (γ × β))) (n : α) (t : γ) :
    Option β :=
  (pyGet d n).bind (fun inner => pyGet inner t)

/-- The `(name, time, text)` triple read from one band element, failing like
the loop does when an attribute is missing. -/
def bandEntry (b : Element) : Except ExtractError (String × String × Cell) := do
  let n ← ofOpt (.keyError "name") (pyGet b.attrib "name")
  let t ← ofOpt (.keyError "time") (pyGet b.attrib "time")
  pure (n, t, b.text)

/-- The `(name, time, text)` triples of the band entries of the document, in
document order. -/
def bandEntries (conditions : Element) : Except ExtractError (List (String × String × Cell)) :=
  (conditions.iterTag "band").mapM bandEntry

/-- The two-level dictionary fold both extraction loops perform on their entry
lists: `d[e.name][e.time] = e.text` over the entries in document order. -/
def dictFold (entries : List (String × String × Cell)) : BandsD :=
  entries.foldl (fun acc e => odictUpsert e.1 (odictInsert e.2.1 e.2.2) [] acc) []

/-- The raw `(name, location, text)` triple read from one phenomenon element,
before any normalisation. -/
def vhfEntry (b : Element) : Except ExtractError (String × String × Cell) := do
  let n ← ofOpt (.keyError "name") (pyGet b.attrib "name")
  let loc ← ofOpt (.keyError "location") (pyGet b.attrib "location")
  pure (n, loc, b.text)

/-- The raw `(name, location, text)` triples of the phenomenon entries of the
document, in document order, before any normalisation. -/
def vhfEntries (vhfconditions : Element) :
    Except ExtractError (List (String × String × Cell)) :=
  (vhfconditions.iterTag "phenomenon").mapM vhfEntry

/-- The text of the last entry carrying the given name and time, if any: the
value document order makes win under overwrite semantics.  Later entries (the
tail) take priority over the head. -/
def lastMatch : List (String × String × Cell) → String → String → Option Cell
  | [], _, _ => none
  | e :: rest, n, t =>
    (lastMatch rest n t).or (if e.1 = n ∧ e.2.1 = t then some e.2.2 else none)

/-- First-appearance order of keys not already seen: the order Python
dictionary insertion gives to new keys. -/
def newKeys [DecidableEq α] (seen : List α) : List α → List α
  | [] => []
  | n :: rest => if n ∈ seen then newKeys seen rest else n :: newKeys (n :: seen) rest

/-! The TTL cache and `SolarInfo.get_solarxml`. -/

/-- State of the class-level `TTLCache`: at most the single key `solarxml`,
holding the storage time and the parsed document. -/
structure CacheState where
  entry : Option (Nat × Element)

/-- The cache TTL: data is retrieved at most every hour. -/
def ttl : Nat := 60 * 60

/-- Model of `SolarInfo.get_solarxml`.  The ambient network and clock are
explicit arguments: `fetch` is the outcome `ET.fromstring(urlopen(url).read())`
would have, `now` the current time.  A `TTLCache` entry stored at `t0` is still
present while `now < t0 + ttl`, so membership of `solarxml` decides between
returning the cached root and fetching.  Returns the result, the new cache
state, and how many network fetches were performed (0 or 1). -/
def get_solarxml (fetch : Except FetchError Element) (now : Nat) (st : CacheState) :
    Except FetchError Element × CacheState × Nat :=
  match st.entry with
  | some (t0, d) =>
    if now < t0 + ttl then (.ok d, st, 0)
    else
      match fetch with
      | .ok root => (.ok root, ⟨some (now, root)⟩, 1)
      | .error e => (.error e, st, 1)
  | none =>
    match fetch with
    | .ok root => (.ok root, ⟨some (now, root)⟩, 1)
    | .error e => (.error e, st, 1)

/-- Total number of fetches performed by two successive `get_solarxml` calls,
at times `t1` and `t2`, threading the cache state. -/
def twoCallFetches (f1 f2 : Except FetchError Element) (t1 t2 : Nat)
    (st : CacheState) : Nat :=
  let r1 := get_solarxml f1 t1 st
  let r2 := get_solarxml f2 t2 r1.2.1
  r1.2.2 + r2.2.2

/-! The renderer, `SolarInfo.bands`. -/

/-- Modelled from the tabulate library: a missing value renders as its default
empty string, other cells as their text. -/
def cellStr : Cell → String
  | some s => s
  | none => ""

/-- Modelled from the tabulate library (default table format): the header row
followed by one line per data row, in list order.  Column padding is
abstracted away; only the row structure matters here. -/
def tabulateText (headers : List String) (rows : List (List Cell)) : String :=
  String.intercalate "\n"
    (String.intercalate "  " headers
      :: rows.map (fun r => String.intercalate "  " (r.map cellStr)))

/-- Modelled from the tabulate library (`unsafehtml` format): an HTML table
with one header row and one row per data row in list order, cell text
interpolated without escaping. -/
def tabulateHtml (headers : List String) (rows : List (List Cell)) : String :=
  "<table><tr>" ++ String.join (headers.map (fun h => "<th>" ++ h ++ "</th>")) ++ "</tr>"
    ++ String.join (rows.map (fun r =>
        "<tr>" ++ String.join (r.map (fun c => "<td>" ++ cellStr c ++ "</td>")) ++ "</tr>"))
    ++ "</table>"

/-- The colour dictionary of `SolarInfo.bands`. -/
def colour : List (String × String) :=
  [("Good", " data-mx-color=" ++ sq ++ "#00cc00" ++ sq),
   ("Poor", " data-mx-color=" ++ sq ++ "#cc0000" ++ sq),
   ("Fair", " data-mx-color=" ++ sq ++ "#ffcc00" ++ sq)]

/-- One cell of the colourised HTML rows:
`f"<font{colour[r]}>{r}</font>" if r in colour else r`.  A `None` cell is not
in the dictionary and passes through. -/
def colourCell (r : Cell) : Cell :=
  match r with
  | some s =>
    match pyGet colour s with
    | some attr => some ("<font" ++ attr ++ ">" ++ s ++ "</font>")
    | none => some s
  | none => none

/-- The header template of the bands command after `.format(**band_info["info"])`,
which raises a key error when one of the five fields is missing. -/
def mkTemplate (info : InfoD) : Except ExtractError String := do
  let updated ← ofOpt (.keyError "updated") (pyGet info "updated")
  let solarflux ← ofOpt (.keyError "solarflux") (pyGet info "solarflux")
  let sunspots ← ofOpt (.keyError "sunspots") (pyGet info "sunspots")
  let aindex ← ofOpt (.keyError "aindex") (pyGet info "aindex")
  let kindex ← ofOpt (.keyError "kindex") (pyGet info "kindex")
  pure ("Bands as of " ++ updated ++ ": SFI=" ++ solarflux ++ " SN=" ++ sunspots
    ++ " A=" ++ aindex ++ " K=" ++ kindex)

/-- Model of the body construction in `SolarInfo.bands`: the plain-text body
`template + "\n" + tabulate(**band_info["bands"])` and the HTML body built
from the colourised copy of the table and the colon-split header.  The
template literal always contains a colon, so the two indexed fields exist;
they are read with a default that is never used. -/
def bandsBodies (bi : BandInfo) : Except ExtractError (String × String) := do
  let template ← mkTemplate bi.info
  let new_rows := bi.bands.tabular_data.map (fun row => row.map colourCell)
  let html_table := tabulateHtml bi.bands.headers new_rows
  let parts := pySplitChar template ':'
  let text := template ++ "\n" ++ tabulateText bi.bands.headers bi.bands.tabular_data
  let html := "<h4>" ++ parts.getD 0 "" ++ "</h4>" ++ parts.getD 1 "" ++ "<br />" ++ html_table
  pure (text, html)

/-! Heap model of the colourising step, for the aliasing behaviour of
`copy(band_info["bands"])` followed by `html_rows["tabular_data"] = new_rows`:
list objects live on a heap, dictionaries hold references to them. -/

/-- A heap of Python list objects holding table rows. -/
structure Heap where
  cells : List (List (List Cell))
deriving Repr

/-- Dereferences a list object. -/
def Heap.get (h : Heap) (r : Nat) : List (List Cell) :=
  h.cells.getD r []

/-- Allocates a fresh list object, returning the new heap and its reference. -/
def Heap.alloc (h : Heap) (v : List (List Cell)) : Heap × Nat :=
  (⟨h.cells ++ [v]⟩, h.cells.length)

/-- The `band_table` dictionary with its `tabular_data` list as a heap
reference. -/
structure BandTableRef where
  tabular_data : Nat
  headers : List String
deriving Repr, DecidableEq

/-- Heap model of lines 108 to 119 of the skill: `html_rows = copy(bt)` shares
the row-list reference; the colourised `new_rows` is a fresh list, allocated
and then assigned to the `tabular_data` key of the copy only.  Returns the new
heap, the copied dictionary, and the HTML table string. -/
def bandsHtmlStep (h : Heap) (bt : BandTableRef) : Heap × BandTableRef × String :=
  let html_rows := bt
  let new_rows := (h.get html_rows.tabular_data).map (fun row => row.map colourCell)
  let alloced := h.alloc new_rows
  let html_rows2 : BandTableRef := ⟨alloced.2, html_rows.headers⟩
  (alloced.1, html_rows2, tabulateHtml html_rows2.headers (alloced.1.get html_rows2.tabular_data))

/-! Concrete inputs used by witnesses and counterexamples. -/

/-- A band entry element. -/
def sampleBand (n t v : String) : Element :=
  .mk "band" [("name", n), ("time", t)] (some v) []

/-- A phenomenon entry element. -/
def samplePhen (n l v : String) : Element :=
  .mk "phenomenon" [("name", n), ("location", l)] (some v) []

/-- A top-level scalar field element. -/
def sampleField (tg v : String) : Element :=
  .mk tg [] (some v) []

/-- A sample band-conditions element with a duplicate `(80m, day)` entry. -/
def sampleCC : Element := .mk "calculatedconditions" [] none
  [sampleBand "80m" "day" "Good", sampleBand "40m" "day" "Poor",
   sampleBand "80m" "night" "Fair", sampleBand "40m" "night" "Good",
   sampleBand "80m" "day" "Poor"]

/-- The band entry triples of `sampleCC`, in document order. -/
def sampleEntries : List (String × String × Cell) :=
  [("80m", "day", some "Good"), ("40m", "day", some "Poor"),
   ("80m", "night", some "Fair"), ("40m", "night", some "Good"),
   ("80m", "day", some "Poor")]

/-- The bands dictionary extracted from `sampleCC`: the duplicate entry
overwrote the first `(80m, day)` value. -/
def sampleBandsD : BandsD :=
  [("80m", [("day", some "Poor"), ("night", some "Fair")]),
   ("40m", [("day", some "Poor"), ("night", some "Good")])]

/-- A sample VHF-conditions element. -/
def sampleVhfC : Element := .mk "calculatedvhfconditions" [] none
  [samplePhen "vhf-aurora" "northern_hemi" "Band Closed",
   samplePhen "E-Skip" "europe" "50MHz ES"]

/-- A well-formed sample feed document, with a duplicate band entry. -/
def sampleSolar : Element := .mk "solardata" [] none
  [sampleField "updated" " 12 Oct 2026 0600 GMT ",
   sampleField "solarflux" "150", sampleField "sunspots" "87",
   sampleField "aindex" "5", sampleField "kindex" "2",
   sampleCC, sampleVhfC]

/-- The root wrapping `sampleSolar`. -/
def sampleRoot : Element := .mk "document" [] none [sampleSolar]

/-- A document whose solar element has no `calculatedconditions` child. -/
def noCCRoot : Element := .mk "document" [] none
  [.mk "solardata" [] none [sampleField "updated" "x"]]

/-- A document with band conditions but no `calculatedvhfconditions` child. -/
def noVhfRoot : Element := .mk "document" [] none
  [.mk "solardata" [] none
    [.mk "calculatedconditions" [] none
      [sampleBand "80m" "day" "Good", sampleBand "80m" "night" "Fair"]]]

/-- A document in which band `80m` only has a `day` entry. -/
def missNightRoot : Element := .mk "document" [] none
  [.mk "solardata" [] none
    [.mk "calculatedconditions" [] none [sampleBand "80m" "day" "Good"],
     .mk "calculatedvhfconditions" [] none []]]

/-- A document whose phenomenon name holds an underscore and whose location
holds the substring `vhf`. -/
def c7root : Element := .mk "document" [] none
  [.mk "solardata" [] none
    [.mk "calculatedconditions" [] none [],
     .mk "calculatedvhfconditions" [] none
       [samplePhen "sporadic_e" "europe_vhf" "50MHz ES"]]]

/-- A `band_info` value whose `updated` field holds a colon. -/
def c8bi : BandInfo :=
  ⟨⟨[], ["Band", "Day", "Night"]⟩, [],
   [("updated", "Oct 12 06:00"), ("solarflux", "150"), ("sunspots", "87"),
    ("aindex", "5"), ("kindex", "2")]⟩

/-- A small `band_info` value with colon-free fields and one band row. -/
def plainBi : BandInfo :=
  ⟨⟨[[some "80m", some "Good", some "Fair"]], ["Band", "Day", "Night"]⟩, [],
   [("updated", "12 Oct"), ("solarflux", "150"), ("sunspots", "87"),
    ("aindex", "5"), ("kindex", "2")]⟩

/-- A one-object heap holding the rows of `plainBi`. -/
def plainHeap : Heap := ⟨[[[some "80m", some "Good", some "Fair"]]]⟩

/-- The `band_info` value extracted from `sampleRoot`. -/
def sampleBi : BandInfo :=
  ⟨⟨[[some "80m", some "Poor", some "Fair"], [some "40m", some "Poor", some "Good"]],
    ["Band", "Day", "Night"]⟩,
   [("VHF Aurora", [("Northern Hemi", some "Band Closed")]),
    ("E Skip", [("Europe", some "50MHz ES")])],
   [("updated", "12 Oct 2026 0600 GMT"), ("solarflux", "150"), ("sunspots", "87"),
    ("aindex", "5"), ("kindex", "2")]⟩

/-- A `band_info` value with colon-free fields and no colourable cell. -/
def c8okBi : BandInfo :=
  ⟨⟨[[some "80m", some "Calm", some "Calm"]], ["Band", "Day", "Night"]⟩, [],
   [("updated", "12 Oct"), ("solarflux", "150"), ("sunspots", "87"),
    ("aindex", "5"), ("kindex", "2")]⟩

/-- The band-conditions element of `miniRoot`. -/
def miniCC : Element := .mk "calculatedconditions" [] none
  [sampleBand "80m" "day" "Calm", sampleBand "80m" "night" "Calm"]

/-- The solar element of `miniRoot`. -/
def miniSolar : Element := .mk "solardata" [] none
  [sampleField "updated" "12 Oct", sampleField "solarflux" "150",
   sampleField "sunspots" "87", sampleField "aindex" "5", sampleField "kindex" "2",
   miniCC, .mk "calculatedvhfconditions" [] none []]

/-- A small document whose extraction yields `c8okBi`. -/
def miniRoot : Element := .mk "document" [] none [miniSolar]

/-! Lemmas about the ordered dictionary operations. -/

@[simp] theorem odKeys_nil : odKeys ([] : List (α × β)) = [] := rfl

@[simp] theorem odKeys_cons (p : α × β) (l : List (α × β)) :
    odKeys (p :: l) = p.1 :: odKeys l := rfl

theorem pyGet_odictInsert_self [DecidableEq α] (k : α) (v : β) (l : List (α × β)) :
    pyGet (odictInsert k v l) k = some v := by
  induction l with
  | nil => simp [odictInsert, pyGet]
  | cons p rest ih =>
    by_cases h : p.1 = k <;> simp [odictInsert, h, pyGet, ih]

theorem pyGet_odictInsert_ne [DecidableEq α] (k k' : α) (v : β) (l : List (α × β))
    (h : k' ≠ k) : pyGet (odictInsert k v l) k' = pyGet l k' := by
  have h' : ¬(k = k') := fun he => h he.symm
  induction l with
  | nil => simp [odictInsert, pyGet, h']
  | cons p rest ih =>
    by_cases hp : p.1 = k
    · subst hp
      simp [odictInsert, pyGet, h']
    · simp only [odictInsert, if_neg hp]
      by_cases hp' : p.1 = k' <;> simp [pyGet, hp', ih]

theorem odKeys_odictInsert_mem [DecidableEq α] (k : α) (v : β) (l : List (α × β))
    (hm : k ∈ odKeys l) : odKeys (odictInsert k v l) = odKeys l := by
  induction l with
  | nil => simp at hm
  | cons p rest ih =>
    by_cases h : p.1 = k
    · simp [odictInsert, h]
    · have hm' : k ∈ odKeys rest := by
        rcases List.mem_cons.mp (by simpa using hm) with h1 | h1
        · exact absurd h1.symm h
        · exact h1
      simp [odictInsert, h, ih hm']

theorem odKeys_odictInsert_not_mem [DecidableEq α] (k : α) (v : β) (l : List (α × β))
    (hm : k ∉ odKeys l) : odKeys (odictInsert k v l) = odKeys l ++ [k] := by
  induction l with
  | nil => simp [odictInsert]
  | cons p rest ih =>
    have h : ¬(p.1 = k) := fun he => hm (by simp [he])
    have hm' : k ∉ odKeys rest := fun hk => hm (by simp [hk])
    simp [odictInsert, h, ih hm']

theorem nodup_odictInsert [DecidableEq α] (k : α) (v : β) (l : List (α × β))
    (h : (odKeys l).Nodup) : (odKeys (odictInsert k v l)).Nodup := by
  by_cases hm : k ∈ odKeys l
  · rw [odKeys_odictInsert_mem k v l hm]; exact h
  · rw [odKeys_odictInsert_not_mem k v l hm]
    simp [List.nodup_append, h, hm]

theorem pyGet_odictUpsert_self [DecidableEq α] (k : α) (f : β → β) (dflt : β)
    (l : List (α × β)) :
    pyGet (odictUpsert k f dflt l) k = some (f ((pyGet l k).getD dflt)) := by
  induction l with
  | nil => simp [odictUpsert, pyGet]
  | cons p rest ih =>
    by_cases h : p.1 = k <;> simp [odictUpsert, h, pyGet, ih]

theorem pyGet_odictUpsert_ne [DecidableEq α] (k k' : α) (f : β → β) (dflt : β)
    (l : List (α × β)) (h : k' ≠ k) :
    pyGet (odictUpsert k f dflt l) k' = pyGet l k' := by
  have h' : ¬(k = k') := fun he => h he.symm
  induction l with
  | nil => simp [odictUpsert, pyGet, h']
  | cons p rest ih =>
    by_cases hp : p.1 = k
    · subst hp
      simp [odictUpsert, pyGet, h']
    · simp only [odictUpsert, if_neg hp]
      by_cases hp' : p.1 = k' <;> simp [pyGet, hp', ih]

theorem odKeys_odictUpsert_mem [DecidableEq α] (k : α) (f : β → β) (dflt : β)
    (l : List (α × β)) (hm : k ∈ odKeys l) :
    odKeys (odictUpsert k f dflt l) = odKeys l := by
  induction l with
  | nil => simp at hm
  | cons p rest ih =>
    by_cases h : p.1 = k
    · simp [odictUpsert, h]
    · have hm' : k ∈ odKeys rest := by
        rcases List.mem_cons.mp (by simpa using hm) with h1 | h1
        · exact absurd h1.symm h
        · exact h1
      simp [odictUpsert, h, ih hm']

theorem odKeys_odictUpsert_not_mem [DecidableEq α] (k : α) (f : β → β) (dflt : β)
    (l : List (α × β)) (hm : k ∉ odKeys l) :
    odKeys (odictUpsert k f dflt l) = odKeys l ++ [k] := by
  induction l with
  | nil => simp [odictUpsert]
  | cons p rest ih =>
    have h : ¬(p.1 = k) := fun he => hm (by simp [he])
    have hm' : k ∉ odKeys rest := fun hk => hm (by simp [hk])
    simp [odictUpsert, h, ih hm']

theorem nodup_odictUpsert [DecidableEq α] (k : α) (f : β → β) (dflt : β)
    (l : List (α × β)) (h : (odKeys l).Nodup) :
    (odKeys (odictUpsert k f dflt l)).Nodup := by
  by_cases hm : k ∈ odKeys l
  · rw [odKeys_odictUpsert_mem k f dflt l hm]; exact h
  · rw [odKeys_odictUpsert_not_mem k f dflt l hm]
    simp [List.nodup_append, h, hm]

theorem odictUpsert_forall [DecidableEq α] (P : β → Prop) (k : α) (f : β → β) (dflt : β)
    (l : List (α × β)) (hl : ∀ p ∈ l, P p.2) (hd : P (f dflt))
    (hf : ∀ b, P b → P (f b)) : ∀ p ∈ odictUpsert k f dflt l, P p.2 := by
  induction l with
  | nil =>
    intro q hq
    simp only [odictUpsert, List.mem_singleton] at hq
    subst hq
    exact hd
  | cons p rest ih =>
    intro q hq
    by_cases h : p.1 = k
    · rw [odictUpsert, if_pos h] at hq
      rcases List.mem_cons.mp hq with h1 | h1
      · rw [h1]
        exact hf _ (hl p (List.mem_cons_self p rest))
      · exact hl q (List.mem_cons_of_mem p h1)
    · rw [odictUpsert, if_neg h] at hq
      rcases List.mem_cons.mp hq with h1 | h1
      · rw [h1]
        exact hl p (List.mem_cons_self p rest)
      · exact ih (fun r hr => hl r (List.mem_cons_of_mem p hr)) q h1

/-! Properties of the two-level dictionary fold. -/

theorem pyGet2_step (acc : BandsD) (e : String × String × Cell) (n t : String) :
    pyGet2 (odictUpsert e.1 (odictInsert e.2.1 e.2.2) [] acc) n t
      = (if e.1 = n ∧ e.2.1 = t then some e.2.2 else none).or (pyGet2 acc n t) := by
  by_cases h1 : e.1 = n
  · subst h1
    by_cases h2 : e.2.1 = t
    · subst h2
      simp only [pyGet2, pyGet_odictUpsert_self, Option.some_bind,
        pyGet_odictInsert_self, and_self, if_true]
      rfl
    · simp only [pyGet2, pyGet_odictUpsert_self, Option.some_bind,
        pyGet_odictInsert_ne e.2.1 t e.2.2 _ (fun he => h2 he.symm), h2, and_false,
        if_false, Option.none_or]
      cases hg : pyGet acc e.1 <;> simp [hg, pyGet]
  · simp only [pyGet2, pyGet_odictUpsert_ne e.1 n _ _ acc (fun he => h1 he.symm), h1,
      false_and, if_false, Option.none_or]

theorem dictFold_from (entries : List (String × String × Cell)) :
    ∀ (acc : BandsD) (n t : String),
      pyGet2 (entries.foldl (fun acc e => odictUpsert e.1 (odictInsert e.2.1 e.2.2) [] acc) acc) n t
        = (lastMatch entries n t).or (pyGet2 acc n t) := by
  induction entries with
  | nil => intro acc n t; simp [lastMatch]
  | cons e rest ih =>
    intro acc n t
    rw [List.foldl_cons, ih, lastMatch, Option.or_assoc, pyGet2_step]

/-- C1 helper: in the dictionary built by the fold, the value at `(n, t)` is
the text of the last matching entry in document order. -/
theorem dictFold_lastMatch (entries : List (String × String × Cell)) (n t : String) :
    pyGet2 (dictFold entries) n t = lastMatch entries n t := by
  rw [dictFold, dictFold_from]
  simp [pyGet2, pyGet]

theorem dictFold_keys_nodup_from (entries : List (String × String × Cell)) :
    ∀ acc : BandsD, (odKeys acc).Nodup →
      (odKeys (entries.foldl (fun acc e => odictUpsert e.1 (odictInsert e.2.1 e.2.2) [] acc) acc)).Nodup := by
  induction entries with
  | nil => intro acc h; rw [List.foldl_nil]; exact h
  | cons e rest ih =>
    intro acc h
    exact ih _ (nodup_odictUpsert _ _ _ _ h)

/-- C1 helper: the outer keys of the built dictionary are distinct. -/
theorem dictFold_keys_nodup (entries : List (String × String × Cell)) :
    (odKeys (dictFold entries)).Nodup :=
  dictFold_keys_nodup_from entries [] (by simp)

theorem dictFold_inner_nodup_from (entries : List (String × String × Cell)) :
    ∀ acc : BandsD, (∀ p ∈ acc, (odKeys p.2).Nodup) →
      ∀ p ∈ entries.foldl (fun acc e => odictUpsert e.1 (odictInsert e.2.1 e.2.2) [] acc) acc,
        (odKeys p.2).Nodup := by
  induction entries with
  | nil => intro acc h; rw [List.foldl_nil]; exact h
  | cons e rest ih =>
    intro acc h
    refine ih _ ?_
    refine odictUpsert_forall (fun inner => (odKeys inner).Nodup) e.1
      (odictInsert e.2.1 e.2.2) [] acc h (by simp [odictInsert]) ?_
    intro b hb
    exact nodup_odictInsert _ _ _ hb

/-- C1 helper: the keys of every inner dictionary are distinct. -/
theorem dictFold_inner_nodup (entries : List (String × String × Cell)) :
    ∀ p ∈ dictFold entries, (odKeys p.2).Nodup :=
  dictFold_inner_nodup_from entries [] (by simp)

theorem newKeys_congr [DecidableEq α] (l : List α) :
    ∀ s1 s2 : List α, (∀ x, x ∈ s1 ↔ x ∈ s2) → newKeys s1 l = newKeys s2 l := by
  induction l with
  | nil => intro s1 s2 h; simp [newKeys]
  | cons n rest ih =>
    intro s1 s2 h
    by_cases hm : n ∈ s1
    · rw [newKeys, if_pos hm, newKeys, if_pos ((h n).mp hm), ih s1 s2 h]
    · rw [newKeys, if_neg hm, newKeys, if_neg (fun hx => hm ((h n).mpr hx))]
      refine congrArg (n :: ·) (ih _ _ ?_)
      intro x
      simp only [List.mem_cons, h x]

theorem dictFold_keys_from (entries : List (String × String × Cell)) :
    ∀ acc : BandsD,
      odKeys (entries.foldl (fun acc e => odictUpsert e.1 (odictInsert e.2.1 e.2.2) [] acc) acc)
        = odKeys acc ++ newKeys (odKeys acc) (entries.map (fun e => e.1)) := by
  induction entries with
  | nil => intro acc; simp [newKeys]
  | cons e rest ih =>
    intro acc
    rw [List.foldl_cons, ih, List.map_cons, newKeys]
    by_cases hm : e.1 ∈ odKeys acc
    · rw [if_pos hm, odKeys_odictUpsert_mem _ _ _ _ hm]
    · rw [if_neg hm, odKeys_odictUpsert_not_mem _ _ _ _ hm,
        newKeys_congr _ (odKeys acc ++ [e.1]) (e.1 :: odKeys acc) (by intro x; simp [or_comm])]
      simp

/-- C1 helper: the outer keys of the built dictionary are the entry names in
first-appearance document order. -/
theorem dictFold_keys (entries : List (String × String × Cell)) :
    odKeys (dictFold entries) = newKeys [] (entries.map (fun e => e.1)) := by
  rw [dictFold, dictFold_keys_from]
  rfl

/-! Fusion of the monadic extraction loops with entry reading followed by the
pure dictionary fold. -/

theorem foldlM_map_fusion {ε σ τ δ : Type} (g : σ → Except ε τ) (f : δ → τ → δ)
    (step : δ → σ → Except ε δ)
    (hstep : ∀ acc b, step acc b = (g b).map (fun e => f acc e)) :
    ∀ (l : List σ) (acc : δ),
      l.foldlM step acc = (l.mapM g).map (fun es => es.foldl f acc) := by
  intro l
  induction l with
  | nil => intro acc; rfl
  | cons x xs ih =>
    intro acc
    show step acc x >>= (fun b' => xs.foldlM step b') = _
    rw [List.mapM_cons, hstep]
    cases hg : g x with
    | error e =>
      simp [Except.map, Bind.bind, Except.bind]
    | ok y =>
      show List.foldlM step (f acc y) xs = _
      rw [ih (f acc y)]
      cases hm : xs.mapM g with
      | error e => simp [Except.map, Bind.bind, Except.bind, hm]
      | ok ys => simp [Except.map, Bind.bind, Except.bind, hm, Pure.pure, Except.pure]

theorem bandStep_eq (acc : BandsD) (b : Element) :
    bandStep acc b = (bandEntry b).map
      (fun e => odictUpsert e.1 (odictInsert e.2.1 e.2.2) [] acc) := by
  cases hn : pyGet b.attrib "name" <;> cases ht : pyGet b.attrib "time" <;>
    simp [bandStep, bandEntry, hn, ht, ofOpt, Except.map, Bind.bind, Except.bind,
      Pure.pure, Except.pure]

/-- The band loop is entry reading followed by the pure dictionary fold. -/
theorem bandsDictE_eq (conditions : Element) :
    bandsDictE conditions = (bandEntries conditions).map dictFold := by
  rw [bandsDictE, bandEntries]
  exact foldlM_map_fusion bandEntry _ bandStep bandStep_eq _ []

theorem vhfStep_eq (acc : VhfD) (b : Element) :
    vhfStep acc b = (vhfEntry b).map
      (fun e => odictUpsert (normPhen e.1) (odictInsert (normLoc e.2.1) e.2.2) [] acc) := by
  cases hn : pyGet b.attrib "name" <;> cases ht : pyGet b.attrib "location" <;>
    simp [vhfStep, vhfEntry, hn, ht, ofOpt, Except.map, Bind.bind, Except.bind,
      Pure.pure, Except.pure]

/-- The VHF loop is raw entry reading, one normalisation of each name and
location, then the same pure dictionary fold. -/
theorem vhfDictE_eq (vhfconditions : Element) :
    vhfDictE vhfconditions = (vhfEntries vhfconditions).map
      (fun es => dictFold (es.map (fun e => (normPhen e.1, normLoc e.2.1, e.2.2)))) := by
  rw [vhfDictE, vhfEntries]
  rw [foldlM_map_fusion vhfEntry
    (fun acc e => odictUpsert (normPhen e.1) (odictInsert (normLoc e.2.1) e.2.2) [] acc)
    vhfStep vhfStep_eq _ []]
  cases hm : (Element.iterTag vhfconditions "phenomenon").mapM vhfEntry with
  | error e => rfl
  | ok es =>
    simp only [Except.map, dictFold, List.foldl_map]

/-- C1: for every feed document, extraction groups band entries into a
dictionary keyed first by the name attribute and then by the time attribute;
each `(name, time)` pair appears exactly once (outer and inner keys are
distinct); the value stored at a pair is the text of the last entry for that
pair in document order (overwrite, not append); and the order of the band keys
is the document order of first appearance of each name. -/
theorem c1_band_grouping_last_write_wins (conditions : Element)
    (entries : List (String × String × Cell)) (bands : BandsD)
    (he : bandEntries conditions = .ok entries)
    (hb : bandsDictE conditions = .ok bands) :
    bands = dictFold entries
    ∧ (odKeys bands).Nodup
    ∧ (∀ p ∈ bands, (odKeys p.2).Nodup)
    ∧ (∀ n t, pyGet2 bands n t = lastMatch entries n t)
    ∧ odKeys bands = newKeys [] (entries.map (fun e => e.1)) := by
  have hfold : bands = dictFold entries := by
    rw [bandsDictE_eq, he] at hb
    exact (Except.ok.inj hb).symm
  subst hfold
  exact ⟨rfl, dictFold_keys_nodup entries, dictFold_inner_nodup entries,
    fun n t => dictFold_lastMatch entries n t, dictFold_keys entries⟩

/-- Witness for C1 at the concrete sample document with a duplicate
`(80m, day)` entry. -/
theorem c1_witness :
    sampleBandsD = dictFold sampleEntries
    ∧ (odKeys sampleBandsD).Nodup
    ∧ (∀ p ∈ sampleBandsD, (odKeys p.2).Nodup)
    ∧ (∀ n t, pyGet2 sampleBandsD n t = lastMatch sampleEntries n t)
    ∧ odKeys sampleBandsD = newKeys [] (sampleEntries.map (fun e => e.1)) :=
  c1_band_grouping_last_write_wins sampleCC sampleEntries sampleBandsD
    (by decide) (by decide)

/-! The cache claims. -/

/-- C2: if a cache entry exists and was stored less than the TTL ago, the call
returns the identical cached document with no fetch and an unchanged cache;
if the entry is absent or expired and the fetch succeeds, the call performs
exactly one fetch, stores the result as the single cache entry and returns it;
and two calls within one TTL window, with succeeding fetches, observe at most
one fetch between them. -/
theorem c2_cache_ttl (f : Except FetchError Element) (st : CacheState) (now t0 : Nat)
    (d doc : Element) :
    (st.entry = some (t0, d) → t0 ≤ now → now - t0 < ttl →
      get_solarxml f now st = (.ok d, st, 0))
    ∧ (st.entry = none → f = .ok doc →
      get_solarxml f now st = (.ok doc, ⟨some (now, doc)⟩, 1))
    ∧ (st.entry = some (t0, d) → ttl ≤ now - t0 → f = .ok doc →
      get_solarxml f now st = (.ok doc, ⟨some (now, doc)⟩, 1))
    ∧ (∀ (f1 f2 : Except FetchError Element) (d1 d2 : Element) (t1 t2 : Nat)
        (st2 : CacheState), f1 = .ok d1 → f2 = .ok d2 → t1 ≤ t2 → t2 - t1 < ttl →
        twoCallFetches f1 f2 t1 t2 st2 ≤ 1) := by
  have httl : ttl = 3600 := rfl
  refine ⟨?_, ?_, ?_, ?_⟩
  · intro h1 h2 h3
    have hlt : now < t0 + ttl := by omega
    simp [get_solarxml, h1, hlt]
  · intro h1 h2
    simp [get_solarxml, h1, h2]
  · intro h1 h2 h3
    have hge : ¬(now < t0 + ttl) := by omega
    simp [get_solarxml, h1, hge, h3]
  · intro f1 f2 d1 d2 t1 t2 st2 h1 h2 hle hwin
    subst h1
    subst h2
    cases hs : st2.entry with
    | none =>
      have hhit : t2 < t1 + ttl := by omega
      simp [twoCallFetches, get_solarxml, hs, hhit]
    | some p =>
      by_cases hfresh : t1 < p.1 + ttl
      · by_cases hfresh2 : t2 < p.1 + ttl
        · simp [twoCallFetches, get_solarxml, hs, hfresh, hfresh2]
        · simp [twoCallFetches, get_solarxml, hs, hfresh, hfresh2]
      · have hhit : t2 < t1 + ttl := by omega
        simp [twoCallFetches, get_solarxml, hs, hfresh, hhit]

/-- Witness for C2: a fresh hit, a miss on the empty cache, a refresh of an
expired entry, and a two-call window, all at concrete times. -/
theorem c2_witness :
    get_solarxml (.error (.transport "down")) 100 ⟨some (50, sampleRoot)⟩
      = (.ok sampleRoot, ⟨some (50, sampleRoot)⟩, 0)
    ∧ get_solarxml (.ok sampleRoot) 7 ⟨none⟩ = (.ok sampleRoot, ⟨some (7, sampleRoot)⟩, 1)
    ∧ get_solarxml (.ok sampleRoot) 5000 ⟨some (0, sampleRoot)⟩
      = (.ok sampleRoot, ⟨some (5000, sampleRoot)⟩, 1)
    ∧ twoCallFetches (.ok sampleRoot) (.ok sampleRoot) 10 20 ⟨none⟩ ≤ 1 :=
  ⟨(c2_cache_ttl (.error (.transport "down")) ⟨some (50, sampleRoot)⟩ 100 50 sampleRoot
      sampleRoot).1 rfl (by decide) (by decide),
   (c2_cache_ttl (.ok sampleRoot) ⟨none⟩ 7 0 sampleRoot sampleRoot).2.1 rfl rfl,
   (c2_cache_ttl (.ok sampleRoot) ⟨some (0, sampleRoot)⟩ 5000 0 sampleRoot
      sampleRoot).2.2.1 rfl (by decide) rfl,
   (c2_cache_ttl (.ok sampleRoot) ⟨none⟩ 0 0 sampleRoot sampleRoot).2.2.2
     (.ok sampleRoot) (.ok sampleRoot) sampleRoot sampleRoot 10 20 ⟨none⟩ rfl rfl
     (by decide) (by decide)⟩

/-- C4: a transport or parse error on an empty cache surfaces the error to the
caller, after exactly one attempted fetch, and leaves the cache unpopulated. -/
theorem c4_fetch_error_empty_cache (e : FetchError) (now : Nat) (st : CacheState)
    (h : st.entry = none) :
    get_solarxml (.error e) now st = (.error e, st, 1) := by
  simp [get_solarxml, h]

/-- Witness for C4 at a concrete transport error on the empty cache. -/
theorem c4_witness :
    get_solarxml (.error (.transport "connection refused")) 12 ⟨none⟩
      = (.error (.transport "connection refused"), ⟨none⟩, 1) :=
  c4_fetch_error_empty_cache (.transport "connection refused") 12 ⟨none⟩ rfl

/-! The extraction error-path claims. -/

theorem bandRow_ok (p : String × InnerD) (dv nv : Cell)
    (hd : pyGet p.2 "day" = some dv) (hn : pyGet p.2 "night" = some nv) :
    bandRow p = .ok [some p.1, dv, nv] := by
  simp only [bandRow, hd, hn, ofOpt, Bind.bind, Except.bind, Pure.pure, Except.pure]

theorem bandRow_err_day (p : String × InnerD) (hd : pyGet p.2 "day" = none) :
    bandRow p = .error (.keyError "day") := by
  simp only [bandRow, hd, ofOpt, Bind.bind, Except.bind]

theorem bandRow_err_night (p : String × InnerD) (dv : Cell)
    (hd : pyGet p.2 "day" = some dv) (hn : pyGet p.2 "night" = none) :
    bandRow p = .error (.keyError "night") := by
  simp only [bandRow, hd, hn, ofOpt, Bind.bind, Except.bind]

theorem mapM_bandRow_cases (bands : BandsD) :
    (∃ rows, bands.mapM bandRow = .ok rows)
    ∨ bands.mapM bandRow = .error (.keyError "day")
    ∨ bands.mapM bandRow = .error (.keyError "night") := by
  induction bands with
  | nil => exact Or.inl ⟨[], rfl⟩
  | cons p rest ih =>
    cases hd : pyGet p.2 "day" with
    | none =>
      right; left
      rw [List.mapM_cons, bandRow_err_day p hd]
      rfl
    | some dv =>
      cases hn : pyGet p.2 "night" with
      | none =>
        right; right
        rw [List.mapM_cons, bandRow_err_night p dv hd hn]
        rfl
      | some nv =>
        rw [List.mapM_cons, bandRow_ok p dv nv hd hn]
        rcases ih with ⟨rows, hr⟩ | hr | hr
        · left
          refine ⟨[some p.1, dv, nv] :: rows, ?_⟩
          rw [hr]
          rfl
        · right; left
          rw [hr]
          rfl
        · right; right
          rw [hr]
          rfl

theorem mapM_bandRow_ok_all (bands : BandsD) (rows : List (List Cell))
    (h : bands.mapM bandRow = .ok rows) :
    ∀ p ∈ bands, (∃ v, pyGet p.2 "day" = some v) ∧ (∃ v, pyGet p.2 "night" = some v) := by
  induction bands generalizing rows with
  | nil => intro p hp; simp at hp
  | cons q rest ih =>
    intro p hp
    cases hd : pyGet q.2 "day" with
    | none =>
      rw [List.mapM_cons, bandRow_err_day q hd] at h
      have h2 : (Except.error (ExtractError.keyError "day")
          : Except ExtractError (List (List Cell))) = .ok rows := h
      cases h2
    | some dv =>
      cases hn : pyGet q.2 "night" with
      | none =>
        rw [List.mapM_cons, bandRow_err_night q dv hd hn] at h
        have h2 : (Except.error (ExtractError.keyError "night")
            : Except ExtractError (List (List Cell))) = .ok rows := h
        cases h2
      | some nv =>
        rcases List.mem_cons.mp hp with h1 | h1
        · exact h1 ▸ ⟨⟨dv, hd⟩, ⟨nv, hn⟩⟩
        · cases hr : rest.mapM bandRow with
          | error e =>
            rw [List.mapM_cons, bandRow_ok q dv nv hd hn, hr] at h
            have h2 : (Except.error e : Except ExtractError (List (List Cell))) = .ok rows := h
            cases h2
          | ok rs => exact ih rs hr p h1

/-- Unfolding of `band_info` past its first three stages, given where they
succeed. -/
theorem band_info_unfold (root solar conditions : Element) (bands : BandsD)
    (hs : root.children.head? = some solar)
    (hcc : solar.findTag "calculatedconditions" = some conditions)
    (hb : bandsDictE conditions = .ok bands) :
    band_info root = (bands.mapM bandRow) >>= (fun tabular =>
      (ofOpt (.schemaError "calculatedvhfconditions")
          (solar.findTag "calculatedvhfconditions")) >>= (fun vhfconditions =>
        (vhfDictE vhfconditions) >>= (fun vhf =>
          (infoDictE solar) >>= (fun info =>
            pure ⟨⟨tabular, ["Band", "Day", "Night"]⟩, vhf, info⟩)))) := by
  simp only [band_info, hs, hcc, hb, ofOpt, Bind.bind, Except.bind]

/-- C3: on a document whose solar element lacks the `calculatedconditions`
child, extraction fails with the schema error for that section; and when the
`calculatedvhfconditions` child is absent the whole invocation fails: it never
returns a `band_info` value (so never empty band or VHF mappings). -/
theorem c3_missing_sections_fail (root solar : Element)
    (hs : root.children.head? = some solar) :
    (solar.findTag "calculatedconditions" = none →
      band_info root = .error (.schemaError "calculatedconditions"))
    ∧ (solar.findTag "calculatedvhfconditions" = none →
      ∀ bi, band_info root ≠ .ok bi) := by
  constructor
  · intro h
    simp only [band_info, hs, h, ofOpt, Bind.bind, Except.bind]
  · intro h bi
    cases hcc : solar.findTag "calculatedconditions" with
    | none =>
      simp only [band_info, hs, hcc, ofOpt, Bind.bind, Except.bind]
      simp
    | some c =>
      cases hb : bandsDictE c with
      | error e =>
        simp only [band_info, hs, hcc, hb, ofOpt, Bind.bind, Except.bind]
        simp
      | ok bands =>
        rw [band_info_unfold root solar c bands hs hcc hb]
        rcases mapM_bandRow_cases bands with ⟨rows, hr⟩ | hr | hr <;>
          rw [hr] <;> simp only [h, ofOpt] <;>
          intro hcontra <;>
          exact Except.noConfusion hcontra

/-- Witness for C3: the missing-conditions document and the missing-VHF
document both fail. -/
theorem c3_witness :
    band_info noCCRoot = .error (.schemaError "calculatedconditions")
    ∧ ∀ bi, band_info noVhfRoot ≠ .ok bi :=
  ⟨(c3_missing_sections_fail noCCRoot (.mk "solardata" [] none [sampleField "updated" "x"])
      rfl).1 rfl,
   (c3_missing_sections_fail noVhfRoot
      (.mk "solardata" [] none
        [.mk "calculatedconditions" [] none
          [sampleBand "80m" "day" "Good", sampleBand "80m" "night" "Fair"]]) rfl).2
     rfl⟩

/-- C10: when some band in the extracted dictionary lacks a `day` or `night`
entry, building the band table fails with a missing-key error for one of the
two time keys; no `band_info` value with a partial table is returned. -/
theorem c10_missing_time_fails (root solar conditions : Element) (bands : BandsD)
    (hs : root.children.head? = some solar)
    (hcc : solar.findTag "calculatedconditions" = some conditions)
    (hb : bandsDictE conditions = .ok bands)
    (hdef : ∃ p ∈ bands, pyGet p.2 "day" = none ∨ pyGet p.2 "night" = none) :
    band_info root = .error (.keyError "day")
    ∨ band_info root = .error (.keyError "night") := by
  rcases mapM_bandRow_cases bands with ⟨rows, hr⟩ | hr | hr
  · exfalso
    rcases hdef with ⟨p, hp, hor⟩
    rcases mapM_bandRow_ok_all bands rows hr p hp with ⟨⟨v1, hv1⟩, ⟨v2, hv2⟩⟩
    rcases hor with hnone | hnone <;> simp_all
  · left
    rw [band_info_unfold root solar conditions bands hs hcc hb, hr]
    rfl
  · right
    rw [band_info_unfold root solar conditions bands hs hcc hb, hr]
    rfl

/-- Witness for C10 at the document whose band `80m` has only a day entry. -/
theorem c10_witness :
    band_info missNightRoot = .error (.keyError "day")
    ∨ band_info missNightRoot = .error (.keyError "night") :=
  c10_missing_time_fails missNightRoot
    (.mk "solardata" [] none
      [.mk "calculatedconditions" [] none [sampleBand "80m" "day" "Good"],
       .mk "calculatedvhfconditions" [] none []])
    (.mk "calculatedconditions" [] none [sampleBand "80m" "day" "Good"])
    [("80m", [("day", some "Good")])] rfl rfl (by decide)
    ⟨("80m", [("day", some "Good")]), by decide, Or.inr (by decide)⟩

/-! The aliasing claim about the colourising step. -/

theorem Heap.get_alloc_old (h : Heap) (v : List (List Cell)) (r : Nat)
    (hr : r < h.cells.length) : (h.alloc v).1.get r = h.get r := by
  simp only [Heap.alloc, Heap.get]
  simp [List.getD_eq_getElem?_getD, List.getElem?_append, hr]

theorem Heap.get_alloc_new (h : Heap) (v : List (List Cell)) :
    (h.alloc v).1.get (h.alloc v).2 = v := by
  simp only [Heap.alloc, Heap.get]
  simp [List.getD_eq_getElem?_getD, List.getElem?_append]

/-- C9: the colourising step of the bands command replaces the row list of the
shallow copy with a freshly allocated list and never mutates the original: the
heap object holding the extracted rows is unchanged, the copy points at a new
reference holding the colourised rows, the HTML table is rendered from those,
and the plain-text table rendered afterwards from the original reference still
shows the original cell texts, unwrapped. -/
theorem c9_colourise_no_mutation (h : Heap) (bt : BandTableRef)
    (hr : bt.tabular_data < h.cells.length) :
    ((bandsHtmlStep h bt).1).get bt.tabular_data = h.get bt.tabular_data
    ∧ (bandsHtmlStep h bt).2.1.tabular_data ≠ bt.tabular_data
    ∧ ((bandsHtmlStep h bt).1).get ((bandsHtmlStep h bt).2.1.tabular_data)
        = (h.get bt.tabular_data).map (fun row => row.map colourCell)
    ∧ (bandsHtmlStep h bt).2.2
        = tabulateHtml bt.headers ((h.get bt.tabular_data).map (fun row => row.map colourCell))
    ∧ tabulateText bt.headers (((bandsHtmlStep h bt).1).get bt.tabular_data)
        = tabulateText bt.headers (h.get bt.tabular_data) := by
  have h1 : ((bandsHtmlStep h bt).1).get bt.tabular_data = h.get bt.tabular_data := by
    simp only [bandsHtmlStep]
    exact Heap.get_alloc_old h _ bt.tabular_data hr
  have h2 : (bandsHtmlStep h bt).2.1.tabular_data = h.cells.length := rfl
  have h3 : ((bandsHtmlStep h bt).1).get ((bandsHtmlStep h bt).2.1.tabular_data)
      = (h.get bt.tabular_data).map (fun row => row.map colourCell) := by
    simp only [bandsHtmlStep]
    exact Heap.get_alloc_new h _
  refine ⟨h1, ?_, h3, ?_, by rw [h1]⟩
  · rw [h2]
    omega
  · show tabulateHtml bt.headers (((bandsHtmlStep h bt).1).get ((bandsHtmlStep h bt).2.1.tabular_data)) = _
    rw [h3]

/-- Witness for C9 at a one-object heap holding a row with colourable cells. -/
theorem c9_witness :
    ((bandsHtmlStep plainHeap ⟨0, ["Band", "Day", "Night"]⟩).1).get 0
        = plainHeap.get 0
    ∧ (bandsHtmlStep plainHeap ⟨0, ["Band", "Day", "Night"]⟩).2.1.tabular_data ≠ 0
    ∧ ((bandsHtmlStep plainHeap ⟨0, ["Band", "Day", "Night"]⟩).1).get
          ((bandsHtmlStep plainHeap ⟨0, ["Band", "Day", "Night"]⟩).2.1.tabular_data)
        = (plainHeap.get 0).map (fun row => row.map colourCell)
    ∧ (bandsHtmlStep plainHeap ⟨0, ["Band", "Day", "Night"]⟩).2.2
        = tabulateHtml ["Band", "Day", "Night"]
            ((plainHeap.get 0).map (fun row => row.map colourCell))
    ∧ tabulateText ["Band", "Day", "Night"]
          (((bandsHtmlStep plainHeap ⟨0, ["Band", "Day", "Night"]⟩).1).get 0)
        = tabulateText ["Band", "Day", "Night"] (plainHeap.get 0) :=
  c9_colourise_no_mutation plainHeap ⟨0, ["Band", "Day", "Night"]⟩ (by decide)

/-! The colour-wrapping claim. -/

/-- C5: in the HTML bands table every cell whose text is exactly `Good`,
`Fair` or `Poor` is wrapped in a font element with the fixed colour attribute
of that label (`#00cc00`, `#ffcc00`, `#cc0000` respectively), every other cell
passes through unchanged, and the HTML body of the bands command renders
exactly the cell-wise colourised copy of the extracted table. -/
theorem c5_colour_wrapping :
    colourCell (some "Good")
      = some ("<font data-mx-color=" ++ sq ++ "#00cc00" ++ sq ++ ">Good</font>")
    ∧ colourCell (some "Poor")
      = some ("<font data-mx-color=" ++ sq ++ "#cc0000" ++ sq ++ ">Poor</font>")
    ∧ colourCell (some "Fair")
      = some ("<font data-mx-color=" ++ sq ++ "#ffcc00" ++ sq ++ ">Fair</font>")
    ∧ (∀ s : String, s ≠ "Good" → s ≠ "Poor" → s ≠ "Fair" → colourCell (some s) = some s)
    ∧ colourCell none = none
    ∧ (∀ bi : BandInfo, (bandsBodies bi).map Prod.snd
        = (mkTemplate bi.info).map (fun template =>
            "<h4>" ++ (pySplitChar template ':').getD 0 "" ++ "</h4>"
              ++ (pySplitChar template ':').getD 1 "" ++ "<br />"
              ++ tabulateHtml bi.bands.headers
                  (bi.bands.tabular_data.map (fun row => row.map colourCell)))) := by
  refine ⟨by decide, by decide, by decide, ?_, rfl, ?_⟩
  · intro s h1 h2 h3
    simp [colourCell, colour, pyGet, Ne.symm h1, Ne.symm h2, Ne.symm h3]
  · intro bi
    cases ht : mkTemplate bi.info with
    | error e =>
      simp only [bandsBodies, ht, Bind.bind, Except.bind, Except.map]
    | ok template =>
      simp only [bandsBodies, ht, Bind.bind, Except.bind, Pure.pure, Except.pure,
        Except.map]

/-- Witness for C5: an unknown label passes through unchanged, and the HTML
body of the small concrete report is the colourised table. -/
theorem c5_witness :
    colourCell (some "Band Closed") = some "Band Closed"
    ∧ (bandsBodies plainBi).map Prod.snd
        = (mkTemplate plainBi.info).map (fun template =>
            "<h4>" ++ (pySplitChar template ':').getD 0 "" ++ "</h4>"
              ++ (pySplitChar template ':').getD 1 "" ++ "<br />"
              ++ tabulateHtml plainBi.bands.headers
                  (plainBi.bands.tabular_data.map (fun row => row.map colourCell))) :=
  ⟨c5_colour_wrapping.2.2.2.1 "Band Closed" (by decide) (by decide) (by decide),
   c5_colour_wrapping.2.2.2.2.2 plainBi⟩

/-! The VHF normalisation claim. -/

/-- C7 counterexample: the claim says underscores and hyphens become spaces and
`vhf` is re-uppercased in both phenomenon and location names; on the concrete
document the extracted phenomenon key keeps its underscore (`Sporadic_E`, not
`Sporadic E`) and the location key keeps `Vhf` lowercase (`Europe Vhf`, not
`Europe VHF`). -/
theorem c7_counterexample :
    (band_info c7root).map (fun bi => bi.vhf)
      = .ok [("Sporadic_E", [("Europe Vhf", some "50MHz ES")])]
    ∧ ("Sporadic_E" : String) ≠ "Sporadic E"
    ∧ ("Europe Vhf" : String) ≠ "Europe VHF" :=
  ⟨by decide, by decide, by decide⟩

/-- C7 amended: each phenomenon name is normalised exactly once by turning
hyphens (not underscores) into spaces, title-casing, and re-uppercasing `Vhf`
to `VHF`; each location is normalised exactly once by turning underscores (not
hyphens) into spaces and title-casing, with no `VHF` re-uppercasing; the two
rules differ, and extraction is raw entry reading followed by one application
of the respective rule per key. -/
theorem c7_normalisation_amended (vhfconditions : Element)
    (entries : List (String × String × Cell))
    (he : vhfEntries vhfconditions = .ok entries) :
    vhfDictE vhfconditions
      = .ok (dictFold (entries.map (fun e => (normPhen e.1, normLoc e.2.1, e.2.2))))
    ∧ (∀ s, normPhen s = pyReplace (pyTitle (pyReplace s "-" " ")) "Vhf" "VHF")
    ∧ (∀ s, normLoc s = pyTitle (pyReplace s "_" " "))
    ∧ normPhen "sporadic_e" = "Sporadic_E"
    ∧ normLoc "sporadic_e" = "Sporadic E" := by
  refine ⟨?_, fun s => rfl, fun s => rfl, by decide, by decide⟩
  rw [vhfDictE_eq, he]
  rfl

/-- Witness for C7 at the concrete sample VHF section. -/
theorem c7_witness :
    vhfDictE sampleVhfC
      = .ok (dictFold
          (([("vhf-aurora", "northern_hemi", some "Band Closed"),
             ("E-Skip", "europe", some "50MHz ES")]
            : List (String × String × Cell)).map
            (fun e => (normPhen e.1, normLoc e.2.1, e.2.2))))
    ∧ (∀ s, normPhen s = pyReplace (pyTitle (pyReplace s "-" " ")) "Vhf" "VHF")
    ∧ (∀ s, normLoc s = pyTitle (pyReplace s "_" " "))
    ∧ normPhen "sporadic_e" = "Sporadic_E"
    ∧ normLoc "sporadic_e" = "Sporadic E" :=
  c7_normalisation_amended sampleVhfC
    [("vhf-aurora", "northern_hemi", some "Band Closed"),
     ("E-Skip", "europe", some "50MHz ES")] (by decide)

/-! Splitting lemmas for the colon-split header, and inversions of the
body-building steps. -/

theorem pySplitCharAux_no_sep (c : Char) (l : List Char) (h : c ∉ l) :
    pySplitCharAux c l = [l] := by
  induction l with
  | nil => rfl
  | cons x xs ih =>
    have hx : ¬(x = c) := fun he => h (by simp [he])
    have hxs : c ∉ xs := fun hm => h (by simp [hm])
    simp only [pySplitCharAux, ih hxs, if_neg hx]

theorem pySplitCharAux_split (c : Char) (pre post : List Char)
    (hpre : c ∉ pre) (hpost : c ∉ post) :
    pySplitCharAux c (pre ++ c :: post) = [pre, post] := by
  induction pre with
  | nil =>
    simp [pySplitCharAux, pySplitCharAux_no_sep c post hpost]
  | cons y ys ih =>
    have hy : ¬(y = c) := fun he => hpre (by simp [he])
    have hys : c ∉ ys := fun hm => hpre (by simp [hm])
    simp only [List.cons_append, pySplitCharAux, List.append_eq, ih hys, if_neg hy]

theorem pySplitChar_split (c : Char) (pre post : String)
    (hpre : c ∉ pre.data) (hpost : c ∉ post.data) :
    pySplitChar (pre ++ String.singleton c ++ post) c = [pre, post] := by
  rw [pySplitChar]
  have hdata : (pre ++ String.singleton c ++ post).data = pre.data ++ c :: post.data := by
    simp [String.data_append, String.singleton]
  rw [hdata, pySplitCharAux_split c _ _ hpre hpost]
  simp

theorem mkTemplate_ok_inv (info : InfoD) (template : String)
    (h : mkTemplate info = .ok template) :
    ∃ u sfi sn a k,
      pyGet info "updated" = some u ∧ pyGet info "solarflux" = some sfi
      ∧ pyGet info "sunspots" = some sn ∧ pyGet info "aindex" = some a
      ∧ pyGet info "kindex" = some k
      ∧ template = "Bands as of " ++ u ++ ": SFI=" ++ sfi ++ " SN=" ++ sn
          ++ " A=" ++ a ++ " K=" ++ k := by
  cases h1 : pyGet info "updated" with
  | none =>
    simp only [mkTemplate, h1, ofOpt, Bind.bind, Except.bind] at h
    exact Except.noConfusion h
  | some u =>
  cases h2 : pyGet info "solarflux" with
  | none =>
    simp only [mkTemplate, h1, h2, ofOpt, Bind.bind, Except.bind] at h
    exact Except.noConfusion h
  | some sfi =>
  cases h3 : pyGet info "sunspots" with
  | none =>
    simp only [mkTemplate, h1, h2, h3, ofOpt, Bind.bind, Except.bind] at h
    exact Except.noConfusion h
  | some sn =>
  cases h4 : pyGet info "aindex" with
  | none =>
    simp only [mkTemplate, h1, h2, h3, h4, ofOpt, Bind.bind, Except.bind] at h
    exact Except.noConfusion h
  | some a =>
  cases h5 : pyGet info "kindex" with
  | none =>
    simp only [mkTemplate, h1, h2, h3, h4, h5, ofOpt, Bind.bind, Except.bind] at h
    exact Except.noConfusion h
  | some k =>
    simp only [mkTemplate, h1, h2, h3, h4, h5, ofOpt, Bind.bind, Except.bind,
      Pure.pure, Except.pure, Except.ok.injEq] at h
    exact ⟨u, sfi, sn, a, k, rfl, rfl, rfl, rfl, rfl, h.symm⟩

theorem mapM_ok_forall2 {ε α β : Type} (f : α → Except ε β) :
    ∀ (l : List α) (l2 : List β), l.mapM f = .ok l2 →
      List.Forall₂ (fun x y => f x = .ok y) l l2 := by
  intro l
  induction l with
  | nil =>
    intro l2 h
    have h2 : (Except.ok [] : Except ε (List β)) = .ok l2 := h
    injection h2 with h3
    subst h3
    exact .nil
  | cons x xs ih =>
    intro l2 h
    rw [List.mapM_cons] at h
    cases hf : f x with
    | error e =>
      rw [hf] at h
      have h2 : (Except.error e : Except ε (List β)) = .ok l2 := h
      exact Except.noConfusion h2
    | ok y =>
      rw [hf] at h
      cases hm : xs.mapM f with
      | error e =>
        rw [hm] at h
        have h2 : (Except.error e : Except ε (List β)) = .ok l2 := h
        exact Except.noConfusion h2
      | ok ys =>
        rw [hm] at h
        have h2 : (Except.ok (y :: ys) : Except ε (List β)) = .ok l2 := h
        injection h2 with h3
        subst h3
        exact .cons hf (ih ys hm)

theorem bandRow_ok_inv (p : String × InnerD) (row : List Cell)
    (h : bandRow p = .ok row) :
    ∃ day night, pyGet p.2 "day" = some day ∧ pyGet p.2 "night" = some night
      ∧ row = [some p.1, day, night] := by
  cases hd : pyGet p.2 "day" with
  | none =>
    rw [bandRow_err_day p hd] at h
    exact Except.noConfusion h
  | some dv =>
    cases hn : pyGet p.2 "night" with
    | none =>
      rw [bandRow_err_night p dv hd hn] at h
      exact Except.noConfusion h
    | some nv =>
      rw [bandRow_ok p dv nv hd hn] at h
      injection h with h2
      exact ⟨dv, nv, rfl, rfl, h2.symm⟩

/-- C6: the plain-text bands report is the header line interpolating the five
info fields, a newline, and the Band/Day/Night table; the table holds exactly
one row per extracted band, in the insertion (document) order of the bands
dictionary, each row being the band name with its day and night texts. -/
theorem c6_text_report (root solar conditions : Element) (bands : BandsD)
    (bi : BandInfo) (tb hb : String)
    (hs : root.children.head? = some solar)
    (hcc : solar.findTag "calculatedconditions" = some conditions)
    (hband : bandsDictE conditions = .ok bands)
    (hbi : band_info root = .ok bi)
    (hbody : bandsBodies bi = .ok (tb, hb)) :
    bi.bands.headers = ["Band", "Day", "Night"]
    ∧ List.Forall₂ (fun (p : String × InnerD) (row : List Cell) =>
        ∃ day night, pyGet p.2 "day" = some day ∧ pyGet p.2 "night" = some night
          ∧ row = [some p.1, day, night]) bands bi.bands.tabular_data
    ∧ ∃ template u sfi sn a k,
        pyGet bi.info "updated" = some u ∧ pyGet bi.info "solarflux" = some sfi
        ∧ pyGet bi.info "sunspots" = some sn ∧ pyGet bi.info "aindex" = some a
        ∧ pyGet bi.info "kindex" = some k
        ∧ template = "Bands as of " ++ u ++ ": SFI=" ++ sfi ++ " SN=" ++ sn
            ++ " A=" ++ a ++ " K=" ++ k
        ∧ tb = template ++ "\n"
            ++ tabulateText ["Band", "Day", "Night"] bi.bands.tabular_data := by
  rw [band_info_unfold root solar conditions bands hs hcc hband] at hbi
  cases hm : bands.mapM bandRow with
  | error e =>
    rw [hm] at hbi
    exact Except.noConfusion
      (show (Except.error e : Except ExtractError BandInfo) = .ok bi from hbi)
  | ok tabular =>
    rw [hm] at hbi
    cases hv : solar.findTag "calculatedvhfconditions" with
    | none =>
      rw [hv] at hbi
      exact Except.noConfusion
        (show (Except.error (ExtractError.schemaError "calculatedvhfconditions")
          : Except ExtractError BandInfo) = .ok bi from hbi)
    | some vc =>
      rw [hv] at hbi
      have hbi2 : ((vhfDictE vc) >>= (fun vhf =>
          (infoDictE solar) >>= (fun info =>
            pure (⟨⟨tabular, ["Band", "Day", "Night"]⟩, vhf, info⟩ : BandInfo)))
          : Except ExtractError BandInfo) = .ok bi := hbi
      cases hvd : vhfDictE vc with
      | error e =>
        rw [hvd] at hbi2
        exact Except.noConfusion
          (show (Except.error e : Except ExtractError BandInfo) = .ok bi from hbi2)
      | ok vhf =>
        rw [hvd] at hbi2
        have hbi3 : ((infoDictE solar) >>= (fun info =>
            pure (⟨⟨tabular, ["Band", "Day", "Night"]⟩, vhf, info⟩ : BandInfo))
            : Except ExtractError BandInfo) = .ok bi := hbi2
        cases hi : infoDictE solar with
        | error e =>
          rw [hi] at hbi3
          exact Except.noConfusion
            (show (Except.error e : Except ExtractError BandInfo) = .ok bi from hbi3)
        | ok info =>
          rw [hi] at hbi3
          have h2 : (Except.ok (⟨⟨tabular, ["Band", "Day", "Night"]⟩, vhf, info⟩ : BandInfo)
              : Except ExtractError BandInfo) = .ok bi := hbi3
          injection h2 with h3
          subst h3
          cases ht : mkTemplate info with
          | error e =>
            have hbb : bandsBodies ⟨⟨tabular, ["Band", "Day", "Night"]⟩, vhf, info⟩
                = .error e := by
              simp only [bandsBodies, ht, Bind.bind, Except.bind]
            rw [hbb] at hbody
            exact Except.noConfusion hbody
          | ok template =>
            have hbb : bandsBodies ⟨⟨tabular, ["Band", "Day", "Night"]⟩, vhf, info⟩
                = .ok (template ++ "\n" ++ tabulateText ["Band", "Day", "Night"] tabular,
                    "<h4>" ++ (pySplitChar template (Char.ofNat 58)).getD 0 "" ++ "</h4>"
                      ++ (pySplitChar template (Char.ofNat 58)).getD 1 "" ++ "<br />"
                      ++ tabulateHtml ["Band", "Day", "Night"]
                          (tabular.map (fun row => row.map colourCell))) := by
              simp only [bandsBodies, ht, Bind.bind, Except.bind, Pure.pure, Except.pure]
            rw [hbb] at hbody
            injection hbody with hpair
            have htb : tb = template ++ "\n" ++ tabulateText ["Band", "Day", "Night"] tabular :=
              (congrArg Prod.fst hpair).symm
            rcases mkTemplate_ok_inv info template ht with
              ⟨u, sfi, sn, a, k, hu, hf, hn2, ha, hk, htpl⟩
            exact ⟨rfl,
              List.Forall₂.imp (fun p row h => bandRow_ok_inv p row h)
                (mapM_ok_forall2 bandRow bands tabular hm),
              template, u, sfi, sn, a, k, hu, hf, hn2, ha, hk, htpl, htb⟩

/-- Witness for C6 at the small concrete document. -/
theorem c6_witness :
    c8okBi.bands.headers = ["Band", "Day", "Night"]
    ∧ List.Forall₂ (fun (p : String × InnerD) (row : List Cell) =>
        ∃ day night, pyGet p.2 "day" = some day ∧ pyGet p.2 "night" = some night
          ∧ row = [some p.1, day, night])
        [("80m", [("day", some "Calm"), ("night", some "Calm")])]
        c8okBi.bands.tabular_data
    ∧ ∃ template u sfi sn a k,
        pyGet c8okBi.info "updated" = some u ∧ pyGet c8okBi.info "solarflux" = some sfi
        ∧ pyGet c8okBi.info "sunspots" = some sn ∧ pyGet c8okBi.info "aindex" = some a
        ∧ pyGet c8okBi.info "kindex" = some k
        ∧ template = "Bands as of " ++ u ++ ": SFI=" ++ sfi ++ " SN=" ++ sn
            ++ " A=" ++ a ++ " K=" ++ k
        ∧ "Bands as of 12 Oct: SFI=150 SN=87 A=5 K=2\nBand  Day  Night\n80m  Calm  Calm"
            = template ++ "\n"
              ++ tabulateText ["Band", "Day", "Night"] c8okBi.bands.tabular_data :=
  c6_text_report miniRoot miniSolar miniCC
    [("80m", [("day", some "Calm"), ("night", some "Calm")])] c8okBi
    "Bands as of 12 Oct: SFI=150 SN=87 A=5 K=2\nBand  Day  Night\n80m  Calm  Calm"
    "<h4>Bands as of 12 Oct</h4> SFI=150 SN=87 A=5 K=2<br /><table><tr><th>Band</th><th>Day</th><th>Night</th></tr><tr><td>80m</td><td>Calm</td><td>Calm</td></tr></table>"
    rfl rfl (by decide) (by decide) (by decide)

/-! The HTML header claim. -/

/-- C8 counterexample: with an `updated` field holding a colon, the text
inside the `<h4>` plus the text following it up to the table is
`Bands as of Oct 12 06` followed by `00`, which is not the full header: the
colon-split drops the entire `SFI=... K=...` portion. -/
theorem c8_counterexample :
    bandsBodies c8bi = .ok
      ("Bands as of Oct 12 06:00: SFI=150 SN=87 A=5 K=2\nBand  Day  Night",
       "<h4>" ++ "Bands as of Oct 12 06" ++ "</h4>" ++ "00" ++ "<br />"
         ++ "<table><tr><th>Band</th><th>Day</th><th>Night</th></tr></table>")
    ∧ "Bands as of Oct 12 06" ++ "00"
        ≠ "Bands as of Oct 12 06:00: SFI=150 SN=87 A=5 K=2" :=
  ⟨by decide, by decide⟩

/-- C8 amended: the HTML bands report is the part of the interpolated header
before its first colon wrapped in `<h4>`, followed by the part between its
first and second colons, `<br />`, and the colourised table; when none of the
five interpolated field values holds a colon, those two parts joined by a
colon reconstruct the full header exactly (so the h4-split loses only the
colon separator, and nothing else). -/
theorem c8_html_header_amended (bi : BandInfo) (template tb hb : String)
    (ht : mkTemplate bi.info = .ok template)
    (hbody : bandsBodies bi = .ok (tb, hb)) :
    hb = "<h4>" ++ (pySplitChar template ':').getD 0 "" ++ "</h4>"
      ++ (pySplitChar template ':').getD 1 "" ++ "<br />"
      ++ tabulateHtml bi.bands.headers
          (bi.bands.tabular_data.map (fun row => row.map colourCell))
    ∧ (∀ u sfi sn a k, pyGet bi.info "updated" = some u →
        pyGet bi.info "solarflux" = some sfi → pyGet bi.info "sunspots" = some sn →
        pyGet bi.info "aindex" = some a → pyGet bi.info "kindex" = some k →
        ':' ∉ u.data → ':' ∉ sfi.data → ':' ∉ sn.data → ':' ∉ a.data → ':' ∉ k.data →
        pySplitChar template ':'
            = ["Bands as of " ++ u,
               " SFI=" ++ sfi ++ " SN=" ++ sn ++ " A=" ++ a ++ " K=" ++ k]
          ∧ (pySplitChar template ':').getD 0 "" ++ ":"
              ++ (pySplitChar template ':').getD 1 "" = template) := by
  constructor
  · have hbb : bandsBodies bi
        = .ok (template ++ "\n" ++ tabulateText bi.bands.headers bi.bands.tabular_data,
            "<h4>" ++ (pySplitChar template ':').getD 0 "" ++ "</h4>"
              ++ (pySplitChar template ':').getD 1 "" ++ "<br />"
              ++ tabulateHtml bi.bands.headers
                  (bi.bands.tabular_data.map (fun row => row.map colourCell))) := by
      simp only [bandsBodies, ht, Bind.bind, Except.bind, Pure.pure, Except.pure]
    rw [hbb] at hbody
    injection hbody with hpair
    exact (congrArg Prod.snd hpair).symm
  · intro u sfi sn a k hu hf hn2 ha hk hcu hcf hcn hca hck
    have htpl : "Bands as of " ++ u ++ ": SFI=" ++ sfi ++ " SN=" ++ sn
        ++ " A=" ++ a ++ " K=" ++ k = template := by
      simp only [mkTemplate, hu, hf, hn2, ha, hk, ofOpt, Bind.bind, Except.bind,
        Pure.pure, Except.pure, Except.ok.injEq] at ht
      exact ht
    have htpl2 : template = ("Bands as of " ++ u) ++ String.singleton ':'
        ++ (" SFI=" ++ sfi ++ " SN=" ++ sn ++ " A=" ++ a ++ " K=" ++ k) := by
      rw [← htpl]
      apply String.ext
      simp [String.data_append, String.singleton]
    have hl0 : ':' ∉ ("Bands as of " : String).data := by decide
    have hl1 : ':' ∉ (" SFI=" : String).data := by decide
    have hl2 : ':' ∉ (" SN=" : String).data := by decide
    have hl3 : ':' ∉ (" A=" : String).data := by decide
    have hl4 : ':' ∉ (" K=" : String).data := by decide
    have hpre : ':' ∉ ("Bands as of " ++ u).data := by
      simp [String.data_append, List.mem_append, hl0, hcu]
    have hpost : ':' ∉ (" SFI=" ++ sfi ++ " SN=" ++ sn ++ " A=" ++ a ++ " K=" ++ k).data := by
      simp [String.data_append, List.mem_append, hl1, hl2, hl3, hl4, hcf, hcn, hca, hck]
    have hsplit : pySplitChar template ':'
        = ["Bands as of " ++ u, " SFI=" ++ sfi ++ " SN=" ++ sn ++ " A=" ++ a ++ " K=" ++ k] := by
      rw [htpl2]
      exact pySplitChar_split ':' _ _ hpre hpost
    refine ⟨hsplit, ?_⟩
    rw [hsplit]
    exact htpl2.symm

/-- Witness for C8 at the colon-free concrete report. -/
theorem c8_witness :
    ("<h4>Bands as of 12 Oct</h4> SFI=150 SN=87 A=5 K=2<br /><table><tr><th>Band</th><th>Day</th><th>Night</th></tr><tr><td>80m</td><td>Calm</td><td>Calm</td></tr></table>"
      : String)
      = "<h4>"
        ++ (pySplitChar "Bands as of 12 Oct: SFI=150 SN=87 A=5 K=2" ':').getD 0 "" ++ "</h4>"
        ++ (pySplitChar "Bands as of 12 Oct: SFI=150 SN=87 A=5 K=2" ':').getD 1 "" ++ "<br />"
        ++ tabulateHtml c8okBi.bands.headers
            (c8okBi.bands.tabular_data.map (fun row => row.map colourCell))
    ∧ pySplitChar "Bands as of 12 Oct: SFI=150 SN=87 A=5 K=2" ':'
        = ["Bands as of " ++ "12 Oct",
           " SFI=" ++ "150" ++ " SN=" ++ "87" ++ " A=" ++ "5" ++ " K=" ++ "2"]
    ∧ (pySplitChar "Bands as of 12 Oct: SFI=150 SN=87 A=5 K=2" ':').getD 0 "" ++ ":"
        ++ (pySplitChar "Bands as of 12 Oct: SFI=150 SN=87 A=5 K=2" ':').getD 1 ""
        = "Bands as of 12 Oct: SFI=150 SN=87 A=5 K=2" := by
  have hmain := c8_html_header_amended c8okBi "Bands as of 12 Oct: SFI=150 SN=87 A=5 K=2"
    "Bands as of 12 Oct: SFI=150 SN=87 A=5 K=2\nBand  Day  Night\n80m  Calm  Calm"
    "<h4>Bands as of 12 Oct</h4> SFI=150 SN=87 A=5 K=2<br /><table><tr><th>Band</th><th>Day</th><th>Night</th></tr><tr><td>80m</td><td>Calm</td><td>Calm</td></tr></table>"
    (by decide) (by decide)
  have hpart := hmain.2 "12 Oct" "150" "87" "5" "2" (by decide) (by decide) (by decide)
    (by decide) (by decide) (by decide) (by decide) (by decide) (by decide) (by decide)
  exact ⟨hmain.1, hpart.1, hpart.2⟩

end Hambot
